import Mathlib

/-!
Verification of the TCP mux / packet-conn layer of muxable/webrtc-ice
(`tcp_mux.go`, `tcp_packet_conn.go`) against its design specification.

The Go code is shallowly embedded: byte streams are lists of naturals
(byte values) followed by a terminal I/O error, stateful objects become
explicit state records, and the per-connection reader goroutine is
embedded as the (finite) trace of records it emits toward the inbound
queue.
-/

namespace IceTCP

/-- Error values observable from the embedded code, mirroring the Go error
values used in `tcp_mux.go` / `tcp_packet_conn.go`: `io.ErrClosedPipe`,
`io.ErrShortBuffer`, `errConnectionAddrAlreadyExist`, and an arbitrary
underlying I/O error identified by a code. -/
inductive GoError where
  | errClosedPipe
  | errShortBuffer
  | errAddrAlreadyExist (addr : String)
  | ioError (code : Nat)
  deriving DecidableEq, Repr

/-- A readable byte stream: the bytes still available, then a terminal
error which every further `Read` returns (end of stream or an I/O fault
of the underlying `net.Conn`). -/
structure ByteStream where
  data : List Nat
  terminalErr : GoError
  deriving DecidableEq, Repr

/-- The retry loops of `readStreamingPacket` (tcp_mux.go:294-299 and
308-313): keep calling `conn.Read` until `k` bytes have arrived; any
error from `conn.Read` is returned as is.  On the stream model this
succeeds exactly when `k` bytes are still available. -/
def readFull (s : ByteStream) (k : Nat) : Except GoError (List Nat × ByteStream) :=
  if k ≤ s.data.length then
    .ok (s.data.take k, ⟨s.data.drop k, s.terminalErr⟩)
  else
    .error s.terminalErr

/-- `streamingPacketHeaderLen` (tcp_mux.go:279). -/
def streamingPacketHeaderLen : Nat := 2

/-- Result of one `readStreamingPacket` call: the returned `int`, the
returned error, the bytes placed into `buf` (meaningful when `err` is
`none`), and the stream as the call leaves it. -/
structure ReadResult where
  n : Nat
  err : Option GoError
  payload : List Nat
  rest : ByteStream
  deriving DecidableEq, Repr

/-- `readStreamingPacket` (tcp_mux.go:289-316): read a 2-byte big-endian
length header, fail with `io.ErrShortBuffer` (returning the declared
length) when the length exceeds `cap(buf)`, else read exactly that many
payload bytes.  `binary.BigEndian.Uint16 header` is
`256 * header[0] + header[1]`. -/
def readStreamingPacket (s : ByteStream) (bufCap : Nat) : ReadResult :=
  match readFull s streamingPacketHeaderLen with
  | .error e => ⟨0, some e, [], ⟨[], s.terminalErr⟩⟩
  | .ok (header, s1) =>
    let length := 256 * header.getD 0 0 + header.getD 1 0
    if bufCap < length then ⟨length, some .errShortBuffer, [], s1⟩
    else
      match readFull s1 length with
      | .error e => ⟨0, some e, [], ⟨[], s1.terminalErr⟩⟩
      | .ok (payload, s2) => ⟨length, none, payload, s2⟩

/-- The frame bytes produced by `writeStreamingPacket` (tcp_mux.go:319-321):
`binary.BigEndian.PutUint16(bufferCopy, uint16(len(buf)))` writes
`byte(v >> 8)` then `byte(v)` for `v = len(buf) mod 2^16`, followed by the
payload. -/
def frameBytes (buf : List Nat) : List Nat :=
  buf.length % 65536 / 256 % 256 :: buf.length % 65536 % 256 :: buf

/-- `writeStreamingPacket` (tcp_mux.go:318-329) on a non-faulting
connection: the frame is written in one `Write` call and the header
length is subtracted from the write count, so the returned `int` is the
payload length. -/
def writeStreamingPacket (buf : List Nat) : Nat × List Nat :=
  let bufferCopy := frameBytes buf
  (bufferCopy.length - streamingPacketHeaderLen, bufferCopy)

/-- The length declared by the first two bytes of a stream, as decoded by
`binary.BigEndian.Uint16` in tcp_mux.go:301. -/
def declaredLen (s : ByteStream) : Nat :=
  256 * s.data.getD 0 0 + s.data.getD 1 0

/-- A physical connection handle registered in a `tcpPacketConn`'s conns
map.  The write side of the underlying `net.Conn` (or its `bufferedConn`
wrapper) is abstracted: `writeErr` is the fault its next `Write` raises,
if any, and `written` logs the bytes successfully written so far. -/
structure ConnHandle where
  addr : String
  writeErr : Option GoError
  written : List Nat
  deriving DecidableEq, Repr

/-- `streamingPacket` (tcp_packet_conn.go:87-91): payload bytes, origin
peer address, optional terminal error.  Error records carry nil data,
embedded as `[]`. -/
structure StreamingPacketRec where
  data : List Nat
  raddr : String
  err : Option GoError
  deriving DecidableEq, Repr

/-- State of a `tcpPacketConn` (tcp_packet_conn.go:73-85): the conns map
(an association list keyed by `RemoteAddr().String()`), the contents and
capacity of the buffered channel `recvChan` (capacity is
`params.ReadBuffer`), whether `recvChan` has been closed, and whether
`closedChan` has been closed (the closing signal). -/
structure TCPState where
  conns : List (String × ConnHandle)
  recvQueue : List StreamingPacketRec
  readBufferCap : Nat
  recvClosed : Bool
  closedSignal : Bool
  deriving DecidableEq, Repr

/-- Lookup in the conns map, `t.conns[addr]`. -/
def lookupConn : List (String × ConnHandle) → String → Option ConnHandle
  | [], _ => none
  | (a, h) :: rest, addr => if a = addr then some h else lookupConn rest addr

/-- Replacement of the entry at `addr` in the conns map. -/
def updateConn (conns : List (String × ConnHandle)) (addr : String) (h : ConnHandle) :
    List (String × ConnHandle) :=
  conns.map fun p => if p.1 = addr then (addr, h) else p

/-- `AddConn` (tcp_packet_conn.go:113-144) as a state transition: fail
with `io.ErrClosedPipe` if `closedChan` is already closed, fail with
`errConnectionAddrAlreadyExist` if the remote address is already a key of
the conns map, else register the connection.  The goroutine it spawns is
embedded separately: the enqueue of `firstPacketData` is
`firstPacketSend` and the reader loop's emissions are `startReadingTrace`
(together, `connTrace`).  Wrapping in `bufferedConn` when
`params.WriteBuffer > 0` only changes the write path, which `ConnHandle`
already abstracts. -/
def AddConn (t : TCPState) (conn : ConnHandle) (firstPacketData : Option (List Nat)) :
    Except GoError TCPState :=
  if t.closedSignal then .error .errClosedPipe
  else if (lookupConn t.conns conn.addr).isSome then
    .error (.errAddrAlreadyExist conn.addr)
  else .ok { t with conns := t.conns ++ [(conn.addr, conn)] }

/-- `WriteTo` (tcp_packet_conn.go:214-239): look up the physical
connection for `raddr`; if absent return `(0, io.ErrClosedPipe)` without
dialing or writing anything (the dialing code is commented out in the
source); otherwise `writeStreamingPacket` the payload to it, propagating
a write fault as `(0, err)` and otherwise returning the payload length. -/
def WriteTo (t : TCPState) (buf : List Nat) (raddr : String) :
    (Nat × Option GoError) × TCPState :=
  match lookupConn t.conns raddr with
  | none => ((0, some .errClosedPipe), t)
  | some h =>
    match h.writeErr with
    | some e => ((0, some e), t)
    | none =>
      ((buf.length, none),
        { t with
            conns := updateConn t.conns raddr { h with written := h.written ++ frameBytes buf } })

/-- A Go byte slice seen as its contents plus the spare capacity beyond
its length, so `cap b = b.data.length + b.extraCap`. -/
structure GoSlice where
  data : List Nat
  extraCap : Nat
  deriving DecidableEq, Repr

/-- `cap` of a Go slice in this model. -/
def GoSlice.capacity (b : GoSlice) : Nat := b.data.length + b.extraCap

/-- Go's `copy(dst, src)`: overwrites the first `min (len dst) (len src)`
elements of `dst`, leaving the remainder of `dst` unchanged. -/
def goCopy (dst src : List Nat) : List Nat :=
  src.take dst.length ++ dst.drop src.length

/-- `ReadFrom` (tcp_packet_conn.go:193-211).  `none` models the blocking
receive on an open, empty `recvChan`; otherwise the result is the
returned `(n, raddr, err)` triple, the caller's buffer after the call,
and the state after the dequeue.  A receive on a drained closed channel
yields `ok = false`, hence `io.ErrClosedPipe`; a dequeued record is gone
from the queue in every branch, including the `io.ErrShortBuffer`
branch which compares `cap(b)`, not `len(b)`, and the success branch
which returns `len(pkt.Data)` even when `copy` wrote fewer bytes. -/
def ReadFrom (t : TCPState) (b : GoSlice) :
    Option ((Nat × Option String × Option GoError) × GoSlice × TCPState) :=
  match t.recvQueue with
  | [] => if t.recvClosed then some ((0, none, some .errClosedPipe), b, t) else none
  | pkt :: rest =>
    match pkt.err with
    | some e => some ((0, some pkt.raddr, some e), b, { t with recvQueue := rest })
    | none =>
      if b.capacity < pkt.data.length then
        some ((0, some pkt.raddr, some .errShortBuffer), b, { t with recvQueue := rest })
      else
        some ((pkt.data.length, some pkt.raddr, none),
          ⟨goCopy b.data pkt.data, b.extraCap⟩, { t with recvQueue := rest })

/-- Outcome of one attempt to hand a record to `recvChan` from the state
`t`: delivered into the buffer, dropped, or blocked (no buffer space and
no rendezvous available in `t`, so the attempt cannot complete without
external action). -/
inductive EnqueueOutcome where
  | delivered (t : TCPState)
  | dropped (t : TCPState)
  | blocked
  deriving DecidableEq, Repr

/-- Appending a record to the buffered channel's queue. -/
def enqueue (t : TCPState) (pkt : StreamingPacketRec) : TCPState :=
  { t with recvQueue := t.recvQueue ++ [pkt] }

/-- `handleRecv` (tcp_packet_conn.go:167-181): under the lock, snapshot
`recvChan`, replacing it by nil when the closing signal has fired; then
`select` between sending on the snapshot and `<-t.closedChan`.  With the
signal fired the send branch is impossible (nil channel) and the
closed branch is ready, so the record is dropped; otherwise the send
completes when buffer space exists and blocks when the queue is full. -/
def handleRecv (t : TCPState) (pkt : StreamingPacketRec) : EnqueueOutcome :=
  if t.closedSignal then .dropped t
  else if t.recvQueue.length < t.readBufferCap then .delivered (enqueue t pkt)
  else .blocked

/-- The enqueue of `firstPacketData` performed by the goroutine spawned in
`AddConn` (tcp_packet_conn.go:137): a plain `t.recvChan <- pkt` with no
`select` and no `closedChan` case.  It completes exactly when the
buffered channel has space, whether or not the closing signal has fired,
and blocks otherwise. -/
def firstPacketSend (t : TCPState) (pkt : StreamingPacketRec) : EnqueueOutcome :=
  if t.recvQueue.length < t.readBufferCap then .delivered (enqueue t pkt)
  else .blocked

/-- The trace of records which `startReading` (tcp_packet_conn.go:146-165)
emits toward `recvChan` for one physical connection, in emission order:
a record `⟨payload, raddr, none⟩` per decoded frame and, on the first
`readStreamingPacket` error, one final record `⟨[], raddr, some err⟩`
after which the loop returns (the connection is closed and removed).
`mtu` is the capacity of the loop's read buffer (`receiveMTU`, a
constant of the surrounding package). -/
def startReadingTrace (s : ByteStream) (mtu : Nat) (raddr : String) : List StreamingPacketRec :=
  match h : (readStreamingPacket s mtu).err with
  | some e => [⟨[], raddr, some e⟩]
  | none =>
    ⟨(readStreamingPacket s mtu).payload, raddr, none⟩ ::
      startReadingTrace (readStreamingPacket s mtu).rest mtu raddr
termination_by s.data.length
decreasing_by
  rcases s with ⟨data, err⟩
  rcases data with _ | ⟨a, data⟩
  · exact absurd h (by simp [readStreamingPacket, readFull, streamingPacketHeaderLen])
  rcases data with _ | ⟨b, l⟩
  · exact absurd h (by simp [readStreamingPacket, readFull, streamingPacketHeaderLen])
  simp only [readStreamingPacket, readFull, streamingPacketHeaderLen, List.length_cons,
    List.take_succ_cons, List.take_zero, List.drop_succ_cons, List.drop_zero] at h ⊢
  rw [if_pos (by omega)] at h ⊢
  simp only [List.getD, List.get?, Option.getD_some] at h ⊢
  by_cases hsb : mtu < 256 * a + b
  · rw [if_pos hsb] at h
    simp at h
  · rw [if_neg hsb] at h ⊢
    by_cases hpl : 256 * a + b ≤ l.length
    · rw [if_pos hpl] at h ⊢
      simp only [List.length_drop]
      omega
    · rw [if_neg hpl] at h
      simp at h

/-- The full ordered emission trace of the goroutine spawned by `AddConn`
(tcp_packet_conn.go:135-141): first the `firstPacketData` record when one
was provided, then the reader loop's records.  The two happen in program
order inside one goroutine, and a Go channel delivers one sender's sends
in order, so this is the order in which the connection's records become
visible to `ReadFrom`. -/
def connTrace (firstPacketData : Option (List Nat)) (s : ByteStream) (mtu : Nat)
    (raddr : String) : List StreamingPacketRec :=
  (match firstPacketData with
   | some d => [⟨d, raddr, none⟩]
   | none => []) ++ startReadingTrace s mtu raddr

/-- Concatenation of the frames of a packet sequence, the byte stream a
well-behaved sender produces. -/
def encodeFrames : List (List Nat) → List Nat
  | [] => []
  | p :: ps => frameBytes p ++ encodeFrames ps

/-- Go's `strings.Split(s, sep)` for a one-character separator: the
maximal subsequences of `s` not containing `sep`; always nonempty. -/
def goSplitChar (sep : Char) : List Char → List (List Char)
  | [] => [[]]
  | c :: rest =>
    if c = sep then [] :: goSplitChar sep rest
    else
      match goSplitChar sep rest with
      | [] => [[c]]
      | g :: gs => (c :: g) :: gs

/-- The ufrag computed by `handleConn` (tcp_mux.go:203):
`strings.Split(string(attr), ":")[0]`. -/
def ufragFromUsername (username : List Char) : List Char :=
  (goSplitChar ':' username).headD []

/-- Numeric value of a decimal digit string. -/
def octetValue (ds : List Char) : Nat :=
  ds.foldl (fun acc c => 10 * acc + (c.toNat - 48)) 0

/-- One dotted-quad field: one to three decimal digits with value at most
255. -/
def validOctet (ds : List Char) : Bool :=
  decide (ds ≠ []) && decide (ds.length ≤ 3) && ds.all Char.isDigit &&
    decide (octetValue ds ≤ 255)

/-- A host string that parses as an IPv4 dotted-quad literal. -/
def isIPv4Literal (host : List Char) : Bool :=
  match goSplitChar '.' host with
  | [a, b, c, d] => validOctet a && validOctet b && validOctet c && validOctet d
  | _ => false

/-- Modelled from the spec: `net.ParseIP(host).To4() == nil` at
tcp_mux.go:216 calls into the Go standard library, which is not part of
this repository; per the spec, the address family is IPv6 exactly when
the peer host fails to parse as an IPv4 literal. -/
def routingIsIPv6 (host : List Char) : Bool := !(isIPv4Literal host)

/-- The routing key computed by `handleConn` (tcp_mux.go:203-216): the
ufrag from the USERNAME attribute and the address-family flag from the
peer host. -/
def routingKey (username host : List Char) : List Char × Bool :=
  (ufragFromUsername username, routingIsIPv6 host)

lemma frameBytes_decode (p : List Nat) (hlen : p.length ≤ 65535) :
    256 * (p.length % 65536 / 256 % 256) + p.length % 65536 % 256 = p.length := by
  have hmod : p.length % 65536 = p.length := Nat.mod_eq_of_lt (by omega)
  rw [hmod]
  have hdivlt : p.length / 256 < 256 := by omega
  rw [Nat.mod_eq_of_lt hdivlt]
  exact Nat.div_add_mod p.length 256

lemma readStreamingPacket_frame (p rest : List Nat) (e : GoError) (bufCap : Nat)
    (hlen : p.length ≤ 65535) (hcap : p.length ≤ bufCap) :
    readStreamingPacket ⟨frameBytes p ++ rest, e⟩ bufCap =
      ⟨p.length, none, p, ⟨rest, e⟩⟩ := by
  unfold readStreamingPacket readFull frameBytes streamingPacketHeaderLen
  simp only [List.cons_append, List.length_cons, List.length_append]
  rw [if_pos (by omega)]
  simp only [List.take_succ_cons, List.take_zero, List.drop_succ_cons, List.drop_zero,
    List.getD, List.get?, Option.getD_some]
  have hdec := frameBytes_decode p hlen
  simp only [hdec]
  rw [if_neg (by omega)]
  rw [if_pos (by simp)]
  simp [List.take_left, List.drop_left]

lemma readStreamingPacket_frame_short (p rest : List Nat) (e : GoError) (bufCap : Nat)
    (hlen : p.length ≤ 65535) (hcap : bufCap < p.length) :
    readStreamingPacket ⟨frameBytes p ++ rest, e⟩ bufCap =
      ⟨p.length, some .errShortBuffer, [], ⟨p ++ rest, e⟩⟩ := by
  unfold readStreamingPacket readFull frameBytes streamingPacketHeaderLen
  simp only [List.cons_append, List.length_cons, List.length_append]
  rw [if_pos (by omega)]
  simp only [List.take_succ_cons, List.take_zero, List.drop_succ_cons, List.drop_zero,
    List.getD, List.get?, Option.getD_some]
  have hdec := frameBytes_decode p hlen
  simp only [hdec]
  rw [if_pos hcap]

lemma startReadingTrace_err (s : ByteStream) (mtu : Nat) (raddr : String) (e : GoError)
    (he : (readStreamingPacket s mtu).err = some e) :
    startReadingTrace s mtu raddr = [⟨[], raddr, some e⟩] := by
  rw [startReadingTrace]
  split
  · rename_i e2 h2
    rw [h2] at he
    injection he with h3
    rw [h3]
  · rename_i h2
    rw [h2] at he
    exact Option.noConfusion he

lemma startReadingTrace_ok (s : ByteStream) (mtu : Nat) (raddr : String)
    (hn : (readStreamingPacket s mtu).err = none) :
    startReadingTrace s mtu raddr =
      ⟨(readStreamingPacket s mtu).payload, raddr, none⟩ ::
        startReadingTrace (readStreamingPacket s mtu).rest mtu raddr := by
  rw [startReadingTrace]
  split
  · rename_i e2 h2
    rw [h2] at hn
    exact Option.noConfusion hn
  · rfl

/-- C1: round trip of the framing codec.  Encoding any payload of length
at most 65535 with `writeStreamingPacket` and decoding the resulting byte
stream with `readStreamingPacket` into a buffer of sufficient capacity
returns exactly the original payload and a length equal to the payload
length (consuming the whole frame). -/
theorem writeRead_roundtrip (p : List Nat) (e : GoError) (bufCap : Nat)
    (hlen : p.length ≤ 65535) (hcap : p.length ≤ bufCap) :
    readStreamingPacket ⟨(writeStreamingPacket p).2, e⟩ bufCap =
      ⟨p.length, none, p, ⟨[], e⟩⟩ := by
  have h := readStreamingPacket_frame p [] e bufCap hlen hcap
  simpa [writeStreamingPacket] using h

/-- Witness for C1 at the concrete payload `[10, 20, 30]`. -/
theorem writeRead_roundtrip_witness :
    readStreamingPacket ⟨(writeStreamingPacket [10, 20, 30]).2, .ioError 5⟩ 2048 =
      ⟨3, none, [10, 20, 30], ⟨[], .ioError 5⟩⟩ :=
  writeRead_roundtrip [10, 20, 30] (.ioError 5) 2048 (by decide) (by decide)

/-- C2: `readStreamingPacket` fails with `io.ErrShortBuffer` and returns
the declared length when the 2-byte header declares a length exceeding
the buffer capacity, and any error of the underlying stream — whether it
strikes during the header read or during the payload read — is returned
to the caller unchanged. -/
theorem readStreamingPacket_error_cases (s : ByteStream) (bufCap : Nat) :
    (2 ≤ s.data.length → bufCap < declaredLen s →
      readStreamingPacket s bufCap =
        ⟨declaredLen s, some .errShortBuffer, [], ⟨s.data.drop 2, s.terminalErr⟩⟩)
    ∧ (s.data.length < 2 →
      readStreamingPacket s bufCap = ⟨0, some s.terminalErr, [], ⟨[], s.terminalErr⟩⟩)
    ∧ (2 ≤ s.data.length → declaredLen s ≤ bufCap → s.data.length < 2 + declaredLen s →
      readStreamingPacket s bufCap = ⟨0, some s.terminalErr, [], ⟨[], s.terminalErr⟩⟩) := by
  obtain ⟨data, err⟩ := s
  refine ⟨?_, ?_, ?_⟩
  · intro hlen hcap
    rcases data with _ | ⟨a, _ | ⟨b, l⟩⟩
    · simp at hlen
    · simp at hlen
    · simp only [declaredLen, List.getD, List.get?, Option.getD_some] at hcap ⊢
      simp only [readStreamingPacket, readFull, streamingPacketHeaderLen, List.length_cons,
        List.take_succ_cons, List.take_zero, List.drop_succ_cons, List.drop_zero]
      rw [if_pos (by omega)]
      simp only [List.getD, List.get?, Option.getD_some]
      rw [if_pos hcap]
  · intro hlen
    rcases data with _ | ⟨a, _ | ⟨b, l⟩⟩
    · simp [readStreamingPacket, readFull, streamingPacketHeaderLen]
    · simp [readStreamingPacket, readFull, streamingPacketHeaderLen]
    · exact absurd hlen (by simp only [List.length_cons]; omega)
  · intro hlen hcap hshort
    rcases data with _ | ⟨a, _ | ⟨b, l⟩⟩
    · simp at hlen
    · simp at hlen
    · simp only [declaredLen, List.getD, List.get?, Option.getD_some] at hcap hshort
      simp only [readStreamingPacket, readFull, streamingPacketHeaderLen, List.length_cons,
        List.take_succ_cons, List.take_zero, List.drop_succ_cons, List.drop_zero]
      rw [if_pos (by omega)]
      simp only [List.getD, List.get?, Option.getD_some]
      rw [if_neg (by omega)]
      rw [if_neg (by simp only [List.length_cons] at hshort; omega)]

/-- Witness for C2: a declared length 3 with a 1-byte buffer yields
`ShortBuffer` carrying 3; a stream erroring inside the header read and a
stream erroring inside the payload read both propagate their own error. -/
theorem readStreamingPacket_error_cases_witness :
    readStreamingPacket ⟨[0, 3, 1], .ioError 7⟩ 1 =
      ⟨3, some .errShortBuffer, [], ⟨[1], .ioError 7⟩⟩
    ∧ readStreamingPacket ⟨[9], .ioError 4⟩ 10 =
      ⟨0, some (.ioError 4), [], ⟨[], .ioError 4⟩⟩
    ∧ readStreamingPacket ⟨[0, 3, 1, 2], .ioError 9⟩ 10 =
      ⟨0, some (.ioError 9), [], ⟨[], .ioError 9⟩⟩ :=
  ⟨(readStreamingPacket_error_cases ⟨[0, 3, 1], .ioError 7⟩ 1).1 (by decide) (by decide),
   (readStreamingPacket_error_cases ⟨[9], .ioError 4⟩ 10).2.1 (by decide),
   (readStreamingPacket_error_cases ⟨[0, 3, 1, 2], .ioError 9⟩ 10).2.2 (by decide) (by decide)
     (by decide)⟩

/-- C3 counterexample: after a `ShortBuffer` failure the oversize frame's
payload bytes are still on the stream, and the next `readStreamingPacket`
call reads the first two payload bytes as a length header instead of
observing a frame boundary.  Here the stream carries the frame of
`[0, 0, 7]` followed by the frame of `[1]`; after the `ShortBuffer`
failure (buffer capacity 2) the next call returns the misaligned empty
packet, not the next frame `[1]`. -/
theorem shortBuffer_misalignment_cex :
    (readStreamingPacket ⟨frameBytes [0, 0, 7] ++ frameBytes [1], .ioError 0⟩ 2).err
        = some .errShortBuffer
    ∧ readStreamingPacket
        (readStreamingPacket ⟨frameBytes [0, 0, 7] ++ frameBytes [1], .ioError 0⟩ 2).rest 2048
      = ⟨0, none, [], ⟨[7, 0, 1, 1], .ioError 0⟩⟩
    ∧ (readStreamingPacket
        (readStreamingPacket ⟨frameBytes [0, 0, 7] ++ frameBytes [1], .ioError 0⟩ 2).rest
        2048).payload ≠ [1] := by
  decide

/-- C3 amended: a declared length exceeding the buffer capacity yields
`ShortBuffer` with only the 2-byte header consumed, so the oversize
payload stays on the stream and a further `readStreamingPacket` call on
the same stream would misinterpret payload bytes as a header; the code
avoids corrupt subsequent reads only because its read loop treats the
error as fatal for the connection: `startReading` emits the single error
record and performs no further framed read on that stream. -/
theorem shortBuffer_consumes_header_only (p rest : List Nat) (e : GoError) (bufCap : Nat)
    (raddr : String) (hlen : p.length ≤ 65535) (hcap : bufCap < p.length) :
    readStreamingPacket ⟨frameBytes p ++ rest, e⟩ bufCap =
      ⟨p.length, some .errShortBuffer, [], ⟨p ++ rest, e⟩⟩
    ∧ startReadingTrace ⟨frameBytes p ++ rest, e⟩ bufCap raddr =
      [⟨[], raddr, some .errShortBuffer⟩] := by
  have h1 := readStreamingPacket_frame_short p rest e bufCap hlen hcap
  exact ⟨h1, startReadingTrace_err _ bufCap raddr _ (by rw [h1])⟩

/-- Witness for the amended C3 at the oversize payload `[0, 0, 7]` with
buffer capacity 2. -/
theorem shortBuffer_consumes_header_only_witness :
    readStreamingPacket ⟨frameBytes [0, 0, 7] ++ frameBytes [1], .ioError 3⟩ 2 =
      ⟨3, some .errShortBuffer, [], ⟨[0, 0, 7] ++ frameBytes [1], .ioError 3⟩⟩
    ∧ startReadingTrace ⟨frameBytes [0, 0, 7] ++ frameBytes [1], .ioError 3⟩ 2 "a" =
      [⟨[], "a", some .errShortBuffer⟩] :=
  shortBuffer_consumes_header_only [0, 0, 7] (frameBytes [1]) (.ioError 3) 2 "a"
    (by decide) (by decide)

/-- C4: `AddConn` fails with `io.ErrClosedPipe` once the closing signal
has fired, and fails with `errConnectionAddrAlreadyExist` when a
connection under the same remote-address string is already registered;
in the duplicate case the aggregator state is untouched, so the original
connection is still registered and still usable (a `WriteTo` addressed to
it on a non-faulting connection succeeds). -/
theorem addConn_error_cases (t : TCPState) (conn : ConnHandle) (fp : Option (List Nat)) :
    (t.closedSignal = true → AddConn t conn fp = .error .errClosedPipe)
    ∧ (∀ h, t.closedSignal = false → lookupConn t.conns conn.addr = some h →
        AddConn t conn fp = .error (.errAddrAlreadyExist conn.addr)
        ∧ (∀ buf, h.writeErr = none → (WriteTo t buf conn.addr).1 = (buf.length, none))) := by
  constructor
  · intro hc
    simp [AddConn, hc]
  · intro h hc hl
    constructor
    · simp [AddConn, hc, hl]
    · intro buf hw
      simp [WriteTo, hl, hw]

/-- Witness for C4: a closed aggregator rejects a new connection with
`ClosedPipe`; an open one with address "a" taken rejects a duplicate with
`AddressAlreadyExists` while a `WriteTo` to "a" still succeeds. -/
theorem addConn_error_cases_witness :
    AddConn ⟨[], [], 4, false, true⟩ ⟨"a", none, []⟩ none = .error .errClosedPipe
    ∧ AddConn ⟨[("a", ⟨"a", none, []⟩)], [], 4, false, false⟩ ⟨"a", none, [9]⟩ (some [1]) =
        .error (.errAddrAlreadyExist "a")
    ∧ (WriteTo ⟨[("a", ⟨"a", none, []⟩)], [], 4, false, false⟩ [5] "a").1 = (1, none) := by
  refine ⟨(addConn_error_cases ⟨[], [], 4, false, true⟩ ⟨"a", none, []⟩ none).1 rfl, ?_, ?_⟩
  · exact ((addConn_error_cases ⟨[("a", ⟨"a", none, []⟩)], [], 4, false, false⟩
      ⟨"a", none, [9]⟩ (some [1])).2 ⟨"a", none, []⟩ rfl (by simp [lookupConn])).1
  · exact ((addConn_error_cases ⟨[("a", ⟨"a", none, []⟩)], [], 4, false, false⟩
      ⟨"a", none, [9]⟩ (some [1])).2 ⟨"a", none, []⟩ rfl (by simp [lookupConn])).2 [5] rfl

/-- C5: `ReadFrom` returns `io.ErrClosedPipe` when the inbound queue is
drained and closed; when the dequeued record's payload exceeds the
buffer's capacity it returns `io.ErrShortBuffer` with the record already
removed from the queue (the packet is lost, not re-queued); otherwise it
copies the payload into the buffer and returns the payload length and
the origin peer address. -/
theorem readFrom_cases (t : TCPState) (b : GoSlice) :
    (t.recvQueue = [] → t.recvClosed = true →
      ReadFrom t b = some ((0, none, some .errClosedPipe), b, t))
    ∧ (∀ pkt rest, t.recvQueue = pkt :: rest → pkt.err = none →
        (b.capacity < pkt.data.length →
          ReadFrom t b =
            some ((0, some pkt.raddr, some .errShortBuffer), b, { t with recvQueue := rest }))
        ∧ (pkt.data.length ≤ b.data.length →
          ReadFrom t b =
            some ((pkt.data.length, some pkt.raddr, none),
              ⟨pkt.data ++ b.data.drop pkt.data.length, b.extraCap⟩,
              { t with recvQueue := rest }))) := by
  constructor
  · intro hq hc
    simp [ReadFrom, hq, hc]
  · intro pkt rest hq he
    constructor
    · intro hcap
      simp [ReadFrom, hq, he, hcap]
    · intro hlen
      have hnc : ¬ b.capacity < pkt.data.length := by
        simp only [GoSlice.capacity]
        omega
      simp [ReadFrom, hq, he, hnc, goCopy, List.take_of_length_le hlen]

/-- Witness for C5: a drained closed queue yields `ClosedPipe`; a queued
3-byte packet against a capacity-2 buffer yields `ShortBuffer` with the
packet gone; the same packet against a 3-byte buffer is delivered. -/
theorem readFrom_cases_witness :
    ReadFrom ⟨[], [], 4, true, false⟩ ⟨[], 2⟩ = some ((0, none, some .errClosedPipe), ⟨[], 2⟩,
      ⟨[], [], 4, true, false⟩)
    ∧ ReadFrom ⟨[], [⟨[1, 2, 3], "a", none⟩], 4, false, false⟩ ⟨[], 2⟩ =
        some ((0, some "a", some .errShortBuffer), ⟨[], 2⟩, ⟨[], [], 4, false, false⟩)
    ∧ ReadFrom ⟨[], [⟨[1, 2, 3], "a", none⟩], 4, false, false⟩ ⟨[0, 0, 0], 0⟩ =
        some ((3, some "a", none), ⟨[1, 2, 3], 0⟩, ⟨[], [], 4, false, false⟩) := by
  refine ⟨(readFrom_cases ⟨[], [], 4, true, false⟩ ⟨[], 2⟩).1 rfl rfl, ?_, ?_⟩
  · exact ((readFrom_cases ⟨[], [⟨[1, 2, 3], "a", none⟩], 4, false, false⟩ ⟨[], 2⟩).2
      ⟨[1, 2, 3], "a", none⟩ [] rfl rfl).1 (by decide)
  · exact ((readFrom_cases ⟨[], [⟨[1, 2, 3], "a", none⟩], 4, false, false⟩ ⟨[0, 0, 0], 0⟩).2
      ⟨[1, 2, 3], "a", none⟩ [] rfl rfl).2 (by decide)

/-- C6: `WriteTo` with a peer address absent from the conns map fails
with `io.ErrClosedPipe` leaving the state untouched (no dialing, no
write); with a registered connection it writes the frame-encoded payload
to exactly that connection and propagates a write fault to the caller. -/
theorem writeTo_cases (t : TCPState) (buf : List Nat) (raddr : String) :
    (lookupConn t.conns raddr = none → WriteTo t buf raddr = ((0, some .errClosedPipe), t))
    ∧ (∀ h e, lookupConn t.conns raddr = some h → h.writeErr = some e →
        WriteTo t buf raddr = ((0, some e), t))
    ∧ (∀ h, lookupConn t.conns raddr = some h → h.writeErr = none →
        WriteTo t buf raddr =
          ((buf.length, none),
            { t with
                conns := updateConn t.conns raddr
                  { h with written := h.written ++ frameBytes buf } })) := by
  refine ⟨?_, ?_, ?_⟩
  · intro hl
    simp [WriteTo, hl]
  · intro h e hl hw
    simp [WriteTo, hl, hw]
  · intro h hl hw
    simp [WriteTo, hl, hw]

/-- Witness for C6: an unknown address "c" fails with `ClosedPipe` and
changes nothing; address "b" propagates its injected write fault; address
"a" receives the encoded frame of `[5, 6]`. -/
theorem writeTo_cases_witness :
    WriteTo ⟨[("a", ⟨"a", none, []⟩), ("b", ⟨"b", some (.ioError 1), []⟩)], [], 0, false, false⟩
        [5, 6] "c" =
      ((0, some .errClosedPipe),
        ⟨[("a", ⟨"a", none, []⟩), ("b", ⟨"b", some (.ioError 1), []⟩)], [], 0, false, false⟩)
    ∧ WriteTo ⟨[("a", ⟨"a", none, []⟩), ("b", ⟨"b", some (.ioError 1), []⟩)], [], 0, false, false⟩
        [5, 6] "b" =
      ((0, some (.ioError 1)),
        ⟨[("a", ⟨"a", none, []⟩), ("b", ⟨"b", some (.ioError 1), []⟩)], [], 0, false, false⟩)
    ∧ (WriteTo ⟨[("a", ⟨"a", none, []⟩), ("b", ⟨"b", some (.ioError 1), []⟩)], [], 0, false,
        false⟩ [5, 6] "a").1 = (2, none) := by
  refine ⟨?_, ?_, ?_⟩
  · exact (writeTo_cases _ [5, 6] "c").1 (by simp [lookupConn])
  · exact (writeTo_cases _ [5, 6] "b").2.1 ⟨"b", some (.ioError 1), []⟩ (.ioError 1)
      (by simp [lookupConn]) rfl
  · rw [(writeTo_cases _ [5, 6] "a").2.2 ⟨"a", none, []⟩ (by simp [lookupConn]) rfl]
    rfl

/-- C7: evaluation of the two enqueue paths on a closed aggregator.  The
`handleRecv` path honors the closing signal (the record is dropped, the
producer does not block), and `AddConn` itself refuses new connections;
but the first-packet enqueue spawned by `AddConn` is a plain channel
send with no `closedChan` case: with the signal fired it still blocks
forever when the queue is full (capacity 0 here) and still enqueues a
record when the queue has space — both contradicting the claim. -/
theorem firstPacketSend_ignores_closing_signal :
    firstPacketSend ⟨[], [], 0, false, true⟩ ⟨[7], "a", none⟩ = .blocked
    ∧ handleRecv ⟨[], [], 0, false, true⟩ ⟨[7], "a", none⟩ = .dropped ⟨[], [], 0, false, true⟩
    ∧ firstPacketSend ⟨[], [], 1, false, true⟩ ⟨[7], "a", none⟩ =
        .delivered ⟨[], [⟨[7], "a", none⟩], 1, false, true⟩
    ∧ AddConn ⟨[], [], 1, false, true⟩ ⟨"a", none, []⟩ (some [7]) = .error .errClosedPipe := by
  refine ⟨rfl, rfl, ?_, rfl⟩
  simp [firstPacketSend, enqueue]

/-- C10: `ReadFrom` compares the dequeued payload length against the
buffer's capacity, not its length: with `len b < len pkt.Data ≤ cap b`
there is no `ShortBuffer`, the call returns `n = len pkt.Data`, yet only
the first `len b` payload bytes were copied into the buffer, so the
returned count exceeds the bytes actually delivered. -/
theorem readFrom_capacity_not_length (t : TCPState) (b : GoSlice) (pkt : StreamingPacketRec)
    (rest : List StreamingPacketRec) (hq : t.recvQueue = pkt :: rest) (he : pkt.err = none)
    (hlen : b.data.length < pkt.data.length) (hcap : pkt.data.length ≤ b.capacity) :
    ReadFrom t b =
      some ((pkt.data.length, some pkt.raddr, none),
        ⟨pkt.data.take b.data.length, b.extraCap⟩, { t with recvQueue := rest })
    ∧ (pkt.data.take b.data.length).length = b.data.length := by
  have hnc : ¬ b.capacity < pkt.data.length := by omega
  constructor
  · simp [ReadFrom, hq, he, hnc, goCopy, List.drop_eq_nil_of_le (le_of_lt hlen)]
  · simp [List.length_take]
    omega

/-- Witness for C10: a queued 3-byte packet read into a buffer of length
1 and capacity 6 returns `n = 3` with no error although only one byte
landed in the buffer. -/
theorem readFrom_capacity_not_length_witness :
    ReadFrom ⟨[], [⟨[1, 2, 3], "a", none⟩], 4, false, false⟩ ⟨[9], 5⟩ =
      some ((3, some "a", none), ⟨[1], 5⟩, ⟨[], [], 4, false, false⟩)
    ∧ ([1, 2, 3].take 1).length = 1 :=
  readFrom_capacity_not_length ⟨[], [⟨[1, 2, 3], "a", none⟩], 4, false, false⟩ ⟨[9], 5⟩
    ⟨[1, 2, 3], "a", none⟩ [] rfl rfl (by decide) (by decide)

lemma goSplitChar_ne_nil (sep : Char) (s : List Char) : goSplitChar sep s ≠ [] := by
  induction s with
  | nil => simp [goSplitChar]
  | cons c rest ih =>
    by_cases hc : c = sep
    · simp [goSplitChar, hc]
    · simp only [goSplitChar, if_neg hc]
      cases hgs : goSplitChar sep rest <;> simp

lemma goSplitChar_headD (sep : Char) (s : List Char) :
    (goSplitChar sep s).headD [] = s.takeWhile (fun c => decide (c ≠ sep)) := by
  induction s with
  | nil => simp [goSplitChar]
  | cons c rest ih =>
    by_cases hc : c = sep
    · simp [goSplitChar, hc, List.takeWhile]
    · cases hgs : goSplitChar sep rest with
      | nil => exact absurd hgs (goSplitChar_ne_nil sep rest)
      | cons g gs =>
        rw [hgs] at ih
        simp only [goSplitChar, if_neg hc, hgs, List.headD, List.takeWhile]
        simp only [ne_eq, decide_not, List.headD] at ih
        simp [hc, ih]

/-- C8: the routing key computed by `handleConn` for an accepted
connection whose first frame is a STUN Binding Request with a USERNAME
attribute: the ufrag is the part of the username before the first `:`
(the whole username when it has no `:`), and the session is filed as
IPv6 exactly when the peer host does not parse as an IPv4 literal. -/
theorem routingKey_spec (username host : List Char) :
    routingKey username host =
      (username.takeWhile (fun c => decide (c ≠ ':')), !(isIPv4Literal host)) := by
  unfold routingKey ufragFromUsername routingIsIPv6
  rw [goSplitChar_headD]

lemma startReadingTrace_frames (ps : List (List Nat)) (e : GoError) (mtu : Nat) (raddr : String)
    (hps : ∀ p ∈ ps, p.length ≤ 65535 ∧ p.length ≤ mtu) :
    startReadingTrace ⟨encodeFrames ps, e⟩ mtu raddr =
      ps.map (fun p => (⟨p, raddr, none⟩ : StreamingPacketRec)) ++ [⟨[], raddr, some e⟩] := by
  induction ps with
  | nil =>
    rw [startReadingTrace_err ⟨encodeFrames [], e⟩ mtu raddr e
      (by simp [encodeFrames, readStreamingPacket, readFull, streamingPacketHeaderLen])]
    simp
  | cons p ps ih =>
    have hp := hps p (by simp)
    have hframe := readStreamingPacket_frame p (encodeFrames ps) e mtu hp.1 hp.2
    have hok := startReadingTrace_ok ⟨frameBytes p ++ encodeFrames ps, e⟩ mtu raddr
      (by rw [hframe])
    rw [hframe] at hok
    simp only [encodeFrames]
    rw [hok, ih fun q hq => hps q (by simp [hq])]
    simp

/-- C9: for one physical connection carrying the frames of the packets
`ps`, the records the connection's goroutine emits toward the inbound
queue are, in order, the first packet handed over by the router, then
one record per frame in stream order, then the terminal error record —
so the routed first packet is visible to `receive` before every frame
the read loop decodes from that stream. -/
theorem connTrace_ordered (fp : List Nat) (ps : List (List Nat)) (e : GoError) (mtu : Nat)
    (raddr : String) (hps : ∀ p ∈ ps, p.length ≤ 65535 ∧ p.length ≤ mtu) :
    connTrace (some fp) ⟨encodeFrames ps, e⟩ mtu raddr =
      ⟨fp, raddr, none⟩ ::
        (ps.map (fun p => (⟨p, raddr, none⟩ : StreamingPacketRec)) ++
          [⟨[], raddr, some e⟩]) := by
  unfold connTrace
  rw [startReadingTrace_frames ps e mtu raddr hps]
  simp

/-- Witness for C9: first packet `[1]`, then stream frames `[2]` and
`[3]`, then the end-of-stream record. -/
theorem connTrace_ordered_witness :
    connTrace (some [1]) ⟨encodeFrames [[2], [3]], .ioError 2⟩ 100 "a" =
      ⟨[1], "a", none⟩ ::
        ([[2], [3]].map (fun p => (⟨p, "a", none⟩ : StreamingPacketRec)) ++
          [⟨[], "a", some (.ioError 2)⟩]) :=
  connTrace_ordered [1] [[2], [3]] (.ioError 2) 100 "a" (by decide)

end IceTCP
